import Mathlib

/-
  Shallow embedding of `node-exchange-autodiscover` (src/lib/index.js).

  JavaScript strings are modelled as Lean `String` (with `List Char` used for
  the character-level operations `split`, `indexOf`, `substr`, `charAt`);
  `undefined` is modelled as `Option.none`; JavaScript truthiness of the
  relevant values is modelled explicitly.  Promises become explicit
  `Except`-valued outcomes supplied by an `Env` of collaborator functions
  (HTTP client, DNS resolver, XML parser), and bluebird's `Promise.any`
  over a completion order becomes `raceAny` over a list of outcomes.
-/

/-- The constant `EWS_URL_SETTING` from src/lib/index.js. -/
def EWS_URL_SETTING : String := "ExternalEwsUrl"

/-- Helper for `jsSplit`: prepend a character onto the first segment of a
split-result, mirroring how `String.prototype.split` accumulates the
current segment. -/
def consHead (c : Char) : List (List Char) → List (List Char)
  | [] => [[c]]
  | h :: t => (c :: h) :: t

/-- JavaScript `string.split(sep)` for a single-character separator:
`"".split(":") = [""]`, `"a:b".split(":") = ["a","b"]`,
`"a:".split(":") = ["a",""]`. -/
def jsSplit (sep : Char) : List Char → List (List Char)
  | [] => [[]]
  | c :: rest => if c = sep then [] :: jsSplit sep rest else consHead c (jsSplit sep rest)

/-- JavaScript `splitString[1] || splitString[0]` from ` removePrefix`:
index 1 when it exists and is non-empty (truthy), else index 0. -/
def jsIndex1Or0 : List (List Char) → List Char
  | [] => []
  | [first] => first
  | _first :: second :: _ => if second.isEmpty then _first else second

/-- JavaScript `s.charAt(0).toLowerCase() + s.slice(1)`: lower-case the
first character (`charAt(0)` of the empty string is `""`). -/
def lowerFirst : List Char → List Char
  | [] => []
  | c :: rest => c.toLower :: rest

/-- `lowerFirst` lifted to `String`, for stating theorems. -/
def lowerFirstStr (s : String) : String := String.mk (lowerFirst s.data)

/-- The function ` removePrefix` from src/lib/index.js:
`split(":")`, then `splitString[1] || splitString[0]`, then lower-case the
first character. -/
def removePrefix (s : String) : String :=
  String.mk (lowerFirst (jsIndex1Or0 (jsSplit ':' s.data)))

/-- Everything strictly after the first occurrence of `c` (empty if `c`
does not occur). -/
def afterFirst (c : Char) : List Char → List Char
  | [] => []
  | x :: xs => if x = c then xs else afterFirst c xs

/-- The normalizer name rule as the spec words it (for comparison with the
source's ` removePrefix`): if the name contains a colon, retain only the
segment after the colon, otherwise use the name as-is; lower-case the
first character of the result. -/
def removePrefixSpec (s : String) : String :=
  if s.data.contains ':' then String.mk (lowerFirst (afterFirst ':' s.data))
  else String.mk (lowerFirst s.data)

/-- The `settings` argument as JavaScript receives it: `undefined`
(parameter omitted), a single string, or an array of strings
(the jsdoc type is `?Array|String`). -/
inductive SettingsParam where
  | undef
  | str (s : String)
  | arr (l : List String)
deriving DecidableEq

/-- JavaScript truthiness of a `SettingsParam` value: `undefined` is falsy,
`""` is falsy, every array (including `[]`) is truthy. -/
def jsTruthy : SettingsParam → Bool
  | .undef => false
  | .str s => !s.isEmpty
  | .arr _ => true

/-- JavaScript `[].concat(settings)`: an array contributes its elements, a
string becomes a one-element list, `undefined` becomes `[undefined]`.
Elements are `Option String` so the `undefined` element is representable. -/
def settingsToList : SettingsParam → List (Option String)
  | .undef => [none]
  | .str s => [some s]
  | .arr l => l.map some

/-- The element list built by `wrapSettingsRequest` before rendering:
`[].concat(settings)`, then push `EWS_URL_SETTING` only when
`indexOf(EWS_URL_SETTING) === -1`. -/
def wrapSettingsList (p : SettingsParam) : List (Option String) :=
  let settings := settingsToList p
  if settings.contains (some EWS_URL_SETTING) then settings
  else settings ++ [some EWS_URL_SETTING]

/-- JavaScript template-literal interpolation of a possibly-undefined
string: `undefined` renders as the text "undefined". -/
def jsTemplate : Option String → String
  | none => "undefined"
  | some s => s

/-- The function `wrapSettingsRequest` from src/lib/index.js: render each
element as a setting node and join. -/
def wrapSettingsRequest (p : SettingsParam) : String :=
  String.join ((wrapSettingsList p).map
    (fun s => "<a:Setting>" ++ jsTemplate s ++ "</a:Setting>"))

/-- The function `createAutodiscoverSoap` from src/lib/index.js. -/
def createAutodiscoverSoap (emailAddress : String) (settings : SettingsParam) : String :=
  "" ++
    "<?xml version=\"1.0\" encoding=\"utf-8\"?>" ++
    "<soap:Envelope xmlns:a=\"http://schemas.microsoft.com/exchange/2010/Autodiscover\" " ++
    "xmlns:wsa=\"http://www.w3.org/2005/08/addressing\" " ++
    "xmlns:xsi=\"http://www.w3.org/2001/XMLSchema-instance\" " ++
    "xmlns:soap=\"http://schemas.xmlsoap.org/soap/envelope/\">" ++
    "  <soap:Header>" ++
    "    <a:RequestedServerVersion>Exchange2010</a:RequestedServerVersion>" ++
    "    <wsa:Action>http://schemas.microsoft.com/exchange/2010/Autodiscover/Autodiscover/GetUserSettings</wsa:Action>" ++
    "  </soap:Header>" ++
    "  <soap:Body>" ++
    "    <a:GetUserSettingsRequestMessage xmlns:a=\"http://schemas.microsoft.com/exchange/2010/Autodiscover\">" ++
    "      <a:Request>" ++
    "        <a:Users>" ++
    "          <a:User>" ++
    "            <a:Mailbox>" ++ emailAddress ++ "</a:Mailbox>" ++
    "          </a:User>" ++
    "        </a:Users>" ++
    "        <a:RequestedSettings>" ++ wrapSettingsRequest settings ++ "</a:RequestedSettings>" ++
    "      </a:Request>" ++
    "    </a:GetUserSettingsRequestMessage>" ++
    "  </soap:Body>" ++
    "</soap:Envelope>"

/-- A JavaScript value as produced by `xml2js` (`explicitArray: false`,
`mergeAttrs: true`): a string, an array, or a plain object with
string-keyed fields. `undefined` is represented as `Option.none` at the
use sites, never inside a `Json` value. -/
inductive Json where
  | str (s : String)
  | arr (elems : List Json)
  | obj (fields : List (String × Json))

/-- JavaScript property read `j[k]` on a defined value: for objects, the
field value if present, else `undefined`; for strings and arrays, the
named properties used by this code are absent, hence `undefined`. -/
def getField (j : Json) (k : String) : Option Json :=
  match j with
  | .obj fields =>
    match fields.find? (fun p => p.1 == k) with
    | some p => some p.2
    | none => none
  | _ => none

mutual

/-- JavaScript string coercion of a value (as performed on a computed
property key): strings are themselves, plain objects stringify to
"[object Object]", arrays to their comma-joined elements. -/
def jsToString : Json → String
  | .str s => s
  | .obj _ => "[object Object]"
  | .arr l => jsToStringElems l

/-- Comma-joined stringification of array elements, for `jsToString`. -/
def jsToStringElems : List Json → String
  | [] => ""
  | [j] => jsToString j
  | j :: rest => jsToString j ++ "," ++ jsToStringElems rest

end

/-- JavaScript property-key coercion of a possibly-undefined value:
`undefined` becomes the key "undefined". -/
def jsKeyOf : Option Json → String
  | none => "undefined"
  | some j => jsToString j

/-- JavaScript `[].concat(v)` on a possibly-undefined value: an array
contributes its elements, anything else becomes a one-element list
(so `undefined` becomes `[undefined]`). -/
def jsConcatOne : Option Json → List (Option Json)
  | some (.arr l) => l.map some
  | v => [v]

/-- Chained property access, JavaScript-faithfully: reading a property of
`undefined` throws (a TypeError), modelled as `Except.error ()`; reading a
missing property of a defined value yields `undefined` without throwing. -/
def walkE : List String → Option Json → Except Unit (Option Json)
  | [], v => .ok v
  | _ :: _, none => .error ()
  | k :: ks, some j => walkE ks (getField j k)

/-- Pure (non-throwing) lookup along a chain of property names: `none` as
soon as any step is absent. -/
def walkO : List String → Option Json → Option Json
  | [], v => v
  | _ :: _, none => none
  | k :: ks, some j => walkO ks (getField j k)

/-- The fixed property path walked by `autodiscoverDomains` on the parsed
winning response. -/
def fixedPath : List String :=
  ["envelope", "body", "getUserSettingsResponseMessage", "response",
   "userResponses", "userResponse", "userSettings", "userSetting"]

/-- Pure lookup of the fixed path in a normalized tree: `none` when any
node on the path is absent. -/
def pathLookup (t : Json) : Option Json := walkO fixedPath (some t)

/-- JavaScript `obj[k] = v` on an object modelled as an association list:
update the existing entry in place, else append. Values are
`Option Json` so an `undefined` value can be stored. -/
def objAssign : List (String × Option Json) → String → Option Json → List (String × Option Json)
  | [], k, v => [(k, v)]
  | (k', v') :: rest, k, v =>
    if k' == k then (k, v) :: rest else (k', v') :: objAssign rest k v

/-- One step of the `reduce` in `autodiscoverDomains`:
`userSettings[setting.name] = setting.value` for a defined `setting`. -/
def assignSetting (acc : List (String × Option Json)) (j : Json) : List (String × Option Json) :=
  objAssign acc (jsKeyOf (getField j "name")) (getField j "value")

/-- One step of the `reduce`, on a possibly-undefined element: reading
`.name` of `undefined` throws, modelled as `Except.error ()`. -/
def settingStepM (acc : List (String × Option Json)) (s : Option Json) :
    Except Unit (List (String × Option Json)) :=
  match s with
  | none => .error ()
  | some j => .ok (assignSetting acc j)

/-- The response-extraction stage of `autodiscoverDomains`: walk the fixed
path, coerce the value to an array with `[].concat`, and `reduce` it into
a name-to-value object. Any property access on `undefined` along the way
throws, modelled as `Except.error ()`. -/
def extractSettings (t : Json) : Except Unit (List (String × Option Json)) :=
  match walkE fixedPath (some t) with
  | .error _ => .error ()
  | .ok v => List.foldlM settingStepM [] (jsConcatOne v)

/-- JavaScript property read on the extracted settings object: the stored
value if the key is present (which may itself be `undefined`), else
`undefined`. -/
def jsProp (m : List (String × Option Json)) (k : String) : Option Json :=
  match m.find? (fun p => p.1 == k) with
  | some p => p.2
  | none => none

/-- One DNS SRV record as this code uses it: only the target `name` field
is read (priority, weight and port are discarded). -/
structure SrvRecord where
  name : String
deriving DecidableEq

/-- External collaborators of a discovery call, as their outcomes for this
call: the DNS resolver, the HTTP POST (url, username, possibly-undefined
password, request body), the HTTP GET with redirects disabled (status
code and Location header), and the XML parser. -/
structure Env where
  resolver : String → Except String (List SrvRecord)
  post : String → String → Option String → String → Except String String
  get : String → Except String (Nat × String)
  parse : String → Except Unit Json

/-- The function `queryDns` from src/lib/index.js: SRV lookup on
`_autodiscover._tcp.<domain>`, mapping records to their names, with any
failure caught and turned into an empty array. -/
def queryDns (resolver : String → Except String (List SrvRecord)) (domain : String) :
    List String :=
  match resolver ("_autodiscover._tcp." ++ domain) with
  | .ok records => records.map SrvRecord.name
  | .error _ => []

/-- One transport attempt as `autodiscoverDomains` constructs it: a direct
POST to a URL, or a GET expecting a 302 redirect followed by a POST to
the Location header. -/
inductive Attempt where
  | directPost (url : String)
  | redirectThenPost (url : String)
deriving DecidableEq

/-- The three attempts built per candidate domain by `autodiscoverDomains`,
in source order, over the whole domain list. -/
def attemptsFor : List String → List Attempt
  | [] => []
  | d :: rest =>
    [ .directPost ("https://" ++ d ++ "/autodiscover/autodiscover.svc"),
      .directPost ("https://autodiscover." ++ d ++ "/autodiscover/autodiscover.svc"),
      .redirectThenPost ("http://autodiscover." ++ d ++ "/autodiscover/autodiscover.svc") ]
    ++ attemptsFor rest

/-- The function `tryEndpoint` from src/lib/index.js, as its outcome under
`env`. -/
def tryEndpoint (env : Env) (url username : String) (password : Option String)
    (requestBody : String) : Except String String :=
  env.post url username password requestBody

/-- Outcome of one attempt: a direct POST is `tryEndpoint`; the redirect
pattern GETs without following redirects, fails (`throw new Error()`,
i.e. an empty message) unless the status is 302, and otherwise POSTs to
the Location header value. -/
def runAttempt (env : Env) (username : String) (password : Option String)
    (requestBody : String) : Attempt → Except String String
  | .directPost url => tryEndpoint env url username password requestBody
  | .redirectThenPost url =>
    match env.get url with
    | .error e => .error e
    | .ok sl =>
      if sl.1 ≠ 302 then .error ""
      else tryEndpoint env sl.2 username password requestBody

/-- Bluebird `Promise.any` over a list of already-determined outcomes in a
chosen completion order: the first fulfilled outcome wins; if every
outcome is a rejection, the race rejects with the aggregate of all the
individual rejection reasons. -/
def raceAny : List (Except String String) → Except (List String) String
  | [] => .error []
  | .ok b :: _ => .ok b
  | .error e :: rest =>
    match raceAny rest with
    | .ok b => .ok b
    | .error es => .error (e :: es)

/-- Whether an outcome is a rejection. -/
def isErr : Except String String → Bool
  | .error _ => true
  | .ok _ => false

/-- The rejection reason of an outcome (the empty string for a fulfilled
outcome, which the aggregation never reaches). -/
def errOf : Except String String → String
  | .error e => e
  | .ok _ => ""

/-- The error taxonomy of the spec, as the failure categories the code can
produce: the aggregate rejection of the race, an XML parse failure of the
winning body, and the throw raised while extracting the fixed path from
the parsed body. `invalidInput` names the spec's validation error; the
code contains no construction of it. -/
inductive DiscoverError where
  | invalidInput
  | allEndpointsFailed (errs : List String)
  | parseError
  | malformedResponse
deriving DecidableEq

/-- The function `autodiscoverDomains` from src/lib/index.js: build the
request body, race every attempt over every domain, then parse the
winning body and extract the settings object from the fixed path. -/
def autodiscoverDomains (env : Env) (domains : List String) (emailAddress : String)
    (password : Option String) (username : String) (settings : SettingsParam) :
    Except DiscoverError (List (String × Option Json)) :=
  match raceAny ((attemptsFor domains).map
      (runAttempt env username password (createAutodiscoverSoap emailAddress settings))) with
  | .error errs => .error (.allEndpointsFailed errs)
  | .ok xmlBody =>
    match env.parse xmlBody with
    | .error _ => .error .parseError
    | .ok tree =>
      match extractSettings tree with
      | .error _ => .error .malformedResponse
      | .ok m => .ok m

/-- The `params` object of the exported entry point: required email
address, and the optional fields as JavaScript receives them. -/
structure Params where
  emailAddress : String
  password : Option String
  username : Option String
  queryDns : Option Bool
  settings : SettingsParam

/-- JavaScript `a || b` where `a` is a possibly-undefined boolean: the
result is `b` whenever `a` is absent or falsy, so `false || true` is
`true`. -/
def jsOrBool (a : Option Bool) (b : Bool) : Bool :=
  match a with
  | some true => true
  | some false => b
  | none => b

/-- JavaScript `a || b` where `a` is a possibly-undefined string: the
result is `b` whenever `a` is absent or the empty string. -/
def jsOrStr (a : Option String) (b : String) : String :=
  match a with
  | some s => if s.isEmpty then b else s
  | none => b

/-- First index of a character in a list, if any. -/
def firstIdx (c : Char) : List Char → Option Nat
  | [] => none
  | x :: xs => if x = c then some 0 else (firstIdx c xs).map (· + 1)

/-- JavaScript `string.indexOf(c)`: the first index, or `-1` if absent. -/
def jsIndexOf (c : Char) (s : List Char) : Int :=
  match firstIdx c s with
  | none => -1
  | some i => i

/-- The SMTP-domain computation of the entry point:
`emailAddress.substr(emailAddress.indexOf("@") + 1)` (the whole string
when there is no `@`, since `indexOf` then returns `-1`). -/
def smtpDomain (s : String) : String :=
  String.mk (s.data.drop (jsIndexOf '@' s.data + 1).toNat)

/-- The candidate-domain list the entry point passes to
`autodiscoverDomains`: the SMTP domain, followed by the DNS expansion
when `params.queryDns || true` is true. -/
def candidateDomains (env : Env) (p : Params) : List String :=
  let smtp := smtpDomain p.emailAddress
  smtp :: (if jsOrBool p.queryDns true then queryDns env.resolver smtp else [])

/-- The shaped result of a discovery call: the bare value of the
endpoint-URL attribute, or the full settings object. -/
inductive JsResult where
  | urlResult (u : Option Json)
  | mapResult (m : List (String × Option Json))

/-- The final shaping of the entry point:
`requestedSettings ? settings : settings[EWS_URL_SETTING]`, deciding on
the JavaScript truthiness of the raw `params.settings` value. -/
def shapeResult (requestedSettings : SettingsParam)
    (settings : List (String × Option Json)) : JsResult :=
  if jsTruthy requestedSettings then .mapResult settings
  else .urlResult (jsProp settings EWS_URL_SETTING)

/-- The exported entry point of src/lib/index.js (the promise path; the
callback adapter merely forwards this result or error). -/
def discover (env : Env) (p : Params) : Except DiscoverError JsResult :=
  match autodiscoverDomains env (candidateDomains env p) p.emailAddress
      p.password (jsOrStr p.username p.emailAddress) p.settings with
  | .error e => .error e
  | .ok settings => .ok (shapeResult p.settings settings)

/-- A normalized `userSetting` entry with string `name` and `value`
fields, as the protocol produces. -/
def mkSetting (n v : String) : Json :=
  .obj [("name", .str n), ("value", .str v)]

/--`mkSetting` on a pair. -/
def mkSettingP (e : String × String) : Json := mkSetting e.1 e.2

/-- A normalized response tree whose fixed path leads to the given leaf. -/
def mkPathTree (leaf : Json) : Json :=
  fixedPath.foldr (fun k acc => Json.obj [(k, acc)]) leaf

/-- The value of the last entry with the given name in a name-value list,
if any. -/
def lastValue (entries : List (String × String)) (n : String) : Option String :=
  (entries.reverse.find? (fun e => e.1 == n)).map Prod.snd

/- Lemmas about the split used by ` removePrefix`. -/

theorem jsSplit_sepFree (sep : Char) (s : List Char) (h : sep ∉ s) :
    jsSplit sep s = [s] := by
  induction s with
  | nil => rfl
  | cons x xs ih =>
    have hx : ¬x = sep := fun he => h (he ▸ List.mem_cons_self x xs)
    have hxs : sep ∉ xs := fun hm => h (List.mem_cons_of_mem x hm)
    simp [jsSplit, hx, ih hxs, consHead]

theorem jsSplit_append (sep : Char) (p q : List Char) (h : sep ∉ p) :
    jsSplit sep (p ++ sep :: q) = p :: jsSplit sep q := by
  induction p with
  | nil => simp [jsSplit]
  | cons x xs ih =>
    have hx : ¬x = sep := fun he => h (he ▸ List.mem_cons_self x xs)
    have hxs : sep ∉ xs := fun hm => h (List.mem_cons_of_mem x hm)
    simp [jsSplit, hx, ih hxs, consHead]

/- Lemmas about the element list built by `wrapSettingsRequest`. -/

theorem count_map_some (l : List String) (x : String) :
    (l.map some).count (some x) = l.count x := by
  induction l with
  | nil => rfl
  | cons y ys ih => simp [List.count_cons, ih]

theorem contains_map_some (l : List String) (x : String) :
    (l.map some).contains (some x) = l.contains x := by
  induction l with
  | nil => rfl
  | cons y ys ih => simp [List.contains_cons, ih]

theorem filter_map_some (l : List String) (x : String) :
    (l.map some).filter (fun s => !(s == some x))
      = (l.filter (fun s => !(s == x))).map some := by
  induction l with
  | nil => rfl
  | cons y ys ih =>
    by_cases hy : y = x
    · subst hy; simp [List.filter, ih]
    · have : (y == x) = false := by simp [hy]
      simp [List.filter, this, ih]

/- Lemmas relating throwing and non-throwing walks of a property path. -/

theorem walkE_walkO (ks : List String) (v : Option Json) :
    walkE ks v = .ok (walkO ks v)
      ∨ (walkE ks v = .error () ∧ walkO ks v = none) := by
  induction ks generalizing v with
  | nil => left; rfl
  | cons k ks ih =>
    cases v with
    | none => right; exact ⟨rfl, rfl⟩
    | some j => simpa [walkE, walkO] using ih (getField j k)

theorem extract_error_of_no_path (t : Json) (h : pathLookup t = none) :
    extractSettings t = .error () := by
  unfold extractSettings
  rcases walkE_walkO fixedPath (some t) with he | ⟨he, _⟩
  · rw [he]
    unfold pathLookup at h
    rw [h]
    rfl
  · rw [he]

/- Lemmas about the race over attempt outcomes. -/

theorem raceAny_all_errors (rs : List (Except String String))
    (h : ∀ r ∈ rs, isErr r = true) :
    raceAny rs = .error (rs.map errOf) := by
  induction rs with
  | nil => rfl
  | cons r rest ih =>
    have hr := h r (List.mem_cons_self r rest)
    cases r with
    | ok b => simp [isErr] at hr
    | error e =>
      have : raceAny rest = .error (rest.map errOf) :=
        ih (fun r hm => h r (List.mem_cons_of_mem _ hm))
      simp [raceAny, this, errOf]

/- Lemmas about the settings fold of the response extractor. -/

theorem foldlM_map_some (l : List Json) (acc : List (String × Option Json)) :
    List.foldlM settingStepM acc (l.map some) = .ok (l.foldl assignSetting acc) := by
  induction l generalizing acc with
  | nil => rfl
  | cons j js ih => simpa [List.foldlM, settingStepM] using ih (assignSetting acc j)

theorem jsProp_objAssign (m : List (String × Option Json)) (k : String)
    (v : Option Json) (n : String) :
    jsProp (objAssign m k v) n = if k = n then v else jsProp m n := by
  induction m with
  | nil =>
    by_cases hk : k = n
    · simp [objAssign, jsProp, List.find?, hk]
    · have : (k == n) = false := by simp [hk]
      simp [objAssign, jsProp, List.find?, this, hk]
  | cons e rest ih =>
    obtain ⟨k', v'⟩ := e
    by_cases hk' : k' = k
    · subst hk'
      by_cases hk : k' = n
      · subst hk
        simp [objAssign, jsProp, List.find?]
      · have h1 : (k' == n) = false := by simp [hk]
        simp [objAssign, jsProp, List.find?, h1, hk]
    · have h2 : (k' == k) = false := by simp [hk']
      by_cases hn : k' = n
      · subst hn
        have hkn : ¬k = k' := fun he => hk' he.symm
        simp [objAssign, jsProp, List.find?, h2, hkn]
      · have h3 : (k' == n) = false := by simp [hn]
        have := ih
        simp [objAssign, jsProp, List.find?, h2, h3] at this ⊢
        exact this

theorem find?_append_singleton {α : Type} (l : List α) (x : α) (p : α → Bool) :
    (l ++ [x]).find? p
      = match l.find? p with
        | some y => some y
        | none => if p x then some x else none := by
  induction l with
  | nil => cases hp : p x <;> simp [List.find?, hp]
  | cons y ys ih =>
    by_cases hy : p y = true
    · simp [List.find?, hy]
    · have : p y = false := by simpa using hy
      simp [List.find?, this, ih]

theorem lastValue_append (entries : List (String × String)) (k w n : String) :
    lastValue (entries ++ [(k, w)]) n
      = if k = n then some w else lastValue entries n := by
  unfold lastValue
  rw [List.reverse_append]
  by_cases hk : k = n
  · simp [List.find?, hk]
  · have : (k == n) = false := by simp [hk]
    simp [List.find?, this, hk]

theorem lastValue_cons (k w n : String) (entries : List (String × String)) :
    lastValue ((k, w) :: entries) n
      = match lastValue entries n with
        | some w' => some w'
        | none => if k = n then some w else none := by
  unfold lastValue
  rw [List.reverse_cons, find?_append_singleton]
  by_cases hk : k = n
  · cases h : (entries.reverse.find? (fun e => e.1 == n)) <;> simp [h, hk]
  · have hb : ((k, w).1 == n) = false := by simp [hk]
    cases h : (entries.reverse.find? (fun e => e.1 == n)) <;> simp [h, hk, hb]

theorem assignSetting_mkSetting (acc : List (String × Option Json)) (k w : String) :
    assignSetting acc (mkSetting k w) = objAssign acc k (some (.str w)) := rfl

theorem jsProp_fold_last (entries : List (String × String))
    (acc : List (String × Option Json)) (n : String) :
    jsProp ((entries.map mkSettingP).foldl assignSetting acc) n
      = match lastValue entries n with
        | some w => some (.str w)
        | none => jsProp acc n := by
  induction entries generalizing acc with
  | nil => rfl
  | cons e rest ih =>
    obtain ⟨k, w⟩ := e
    rw [lastValue_cons]
    have step : ((((k, w) :: rest).map mkSettingP).foldl assignSetting acc)
        = ((rest.map mkSettingP).foldl assignSetting (objAssign acc k (some (.str w)))) := by
      simp [mkSettingP, assignSetting_mkSetting]
    rw [step, ih]
    cases h : lastValue rest n with
    | some w' => rfl
    | none =>
      rw [jsProp_objAssign]
      by_cases hk : k = n <;> simp [hk]

theorem lastValue_isSome_of_mem (entries : List (String × String)) (n : String)
    (h : n ∈ entries.map Prod.fst) : (lastValue entries n).isSome = true := by
  induction entries with
  | nil => simp at h
  | cons e rest ih =>
    obtain ⟨k, w⟩ := e
    rw [lastValue_cons]
    rcases List.mem_cons.mp h with hk | hm
    · cases hlv : lastValue rest n with
      | some w' => rfl
      | none =>
        have hkn : k = n := hk.symm
        simp [hkn]
    · cases hlv : lastValue rest n with
      | some w' => rfl
      | none =>
        have := ih (by simpa using hm)
        rw [hlv] at this
        simp at this

/- Lemmas about the entry point's domain handling and error taxonomy. -/

theorem firstIdx_none (c : Char) (l : List Char) (h : c ∉ l) :
    firstIdx c l = none := by
  induction l with
  | nil => rfl
  | cons x xs ih =>
    have hx : ¬x = c := fun he => h (he ▸ List.mem_cons_self x xs)
    have hxs : c ∉ xs := fun hm => h (List.mem_cons_of_mem x hm)
    simp [firstIdx, hx, ih hxs]

theorem autodiscoverDomains_no_invalid (env : Env) (domains : List String)
    (emailAddress : String) (password : Option String) (username : String)
    (settings : SettingsParam) :
    autodiscoverDomains env domains emailAddress password username settings
      ≠ .error .invalidInput := by
  unfold autodiscoverDomains
  cases hr : raceAny ((attemptsFor domains).map
      (runAttempt env username password (createAutodiscoverSoap emailAddress settings))) with
  | error errs => simp
  | ok xmlBody =>
    cases hp : env.parse xmlBody with
    | error e => simp [hp]
    | ok tree =>
      cases hx : extractSettings tree with
      | error e => simp [hp, hx]
      | ok m => simp [hp, hx]

theorem walkE_mkPathTree (leaf : Json) :
    walkE fixedPath (some (mkPathTree leaf)) = .ok (some leaf) := rfl

theorem extractSettings_mkPathTree_arr (l : List Json) :
    extractSettings (mkPathTree (.arr l)) = .ok (l.foldl assignSetting []) := by
  unfold extractSettings
  rw [walkE_mkPathTree]
  exact foldlM_map_some l []

/- Concrete collaborator outcomes and parameters used by the claim
theorems below. -/

/-- Environment whose DNS lookup for b.com succeeds with one alternate
domain and whose transport always fails. -/
def envC1 : Env := {
  resolver := fun q =>
    if q == "_autodiscover._tcp.b.com" then .ok [⟨"alt.example.com"⟩] else .error "nx",
  post := fun _ _ _ _ => .error "e",
  get := fun _ => .error "e",
  parse := fun _ => .error () }

/-- Parameters with DNS expansion explicitly disabled. -/
def paramsC1 : Params := {
  emailAddress := "a@b.com", password := some "pw", username := none,
  queryDns := some false, settings := .undef }

/-- Environment whose first attempt succeeds and whose winning body parses
to a tree with one ExternalEwsUrl setting. -/
def envC2 : Env := {
  resolver := fun _ => .error "nx",
  post := fun _ _ _ _ => .ok "XMLBODY",
  get := fun _ => .error "e",
  parse := fun _ =>
    .ok (mkPathTree (.arr [mkSetting "ExternalEwsUrl" "https://x/ews"])) }

/-- Parameters whose settings value is the empty array. -/
def paramsC2 : Params := {
  emailAddress := "a@b.com", password := some "pw", username := none,
  queryDns := none, settings := .arr [] }

/-- Environment in which DNS and every transport call fail. -/
def envC4 : Env := {
  resolver := fun _ => .error "nx",
  post := fun _ _ _ _ => .error "connection refused",
  get := fun _ => .error "connection refused",
  parse := fun _ => .error () }

/-- Parameters whose email address has no at-sign and whose password is
missing. -/
def paramsC4 : Params := {
  emailAddress := "foobar", password := none, username := none,
  queryDns := none, settings := .undef }

/-- Environment in which DNS and every transport call fail. -/
def envC5 : Env := {
  resolver := fun _ => .error "nx",
  post := fun _ _ _ _ => .error "connection refused",
  get := fun _ => .error "connection refused",
  parse := fun _ => .error () }

/-- Environment whose first attempt succeeds but whose winning body parses
to an empty object, so every node of the fixed path is absent. -/
def envC6 : Env := {
  resolver := fun _ => .error "nx",
  post := fun _ _ _ _ => .ok "<xml/>",
  get := fun _ => .error "e",
  parse := fun _ => .ok (Json.obj []) }

/-- Environment whose DNS resolution always fails. -/
def envC7 : Env := {
  resolver := fun _ => .error "NXDOMAIN",
  post := fun _ _ _ _ => .error "e",
  get := fun _ => .error "e",
  parse := fun _ => .error () }

/-- Parameters with DNS expansion left at its default. -/
def paramsC7 : Params := {
  emailAddress := "a@b.com", password := some "pw", username := none,
  queryDns := none, settings := .undef }

/-- C1: the code evaluated at the failing input. `params.queryDns || true`
is `true` even when `queryDns` is explicitly `false`, so the DNS lookup
still runs and the candidate list passed to the endpoint racer has the
DNS result appended after the SMTP domain, contradicting the claim that
the list has exactly one element and no DNS call is made. -/
theorem C1_queryDns_false_still_queries :
    jsOrBool (some false) true = true
    ∧ candidateDomains envC1 paramsC1 = ["b.com", "alt.example.com"] :=
  ⟨rfl, by decide⟩

/-- C2 counterexample: with `settings` the empty array, a successful
discovery returns the full settings map, not the bare string value of
ExternalEwsUrl, because an empty array is truthy in JavaScript. -/
theorem C2_empty_settings_returns_map :
    discover envC2 paramsC2
      = .ok (.mapResult [("ExternalEwsUrl", some (.str "https://x/ews"))])
    ∧ discover envC2 paramsC2 ≠ .ok (.urlResult (some (.str "https://x/ews"))) := by
  have hmap : discover envC2 paramsC2
      = .ok (.mapResult [("ExternalEwsUrl", some (.str "https://x/ews"))]) := rfl
  refine ⟨hmap, ?_⟩
  intro h
  have h' := hmap.symm.trans h
  simp at h'

/-- C2 amended: the result is the bare ExternalEwsUrl value only when the
settings parameter was omitted; any supplied settings array — even the
empty one — yields the full settings map, which contains the
ExternalEwsUrl key whenever the winning response listed that setting. -/
theorem C2_result_shaping :
    (∀ m, shapeResult .undef m = .urlResult (jsProp m EWS_URL_SETTING))
    ∧ (∀ (l : List String) m, shapeResult (.arr l) m = .mapResult m)
    ∧ (∀ entries : List (String × String), EWS_URL_SETTING ∈ entries.map Prod.fst →
        ∃ mm, extractSettings (mkPathTree (.arr (entries.map mkSettingP))) = .ok mm
          ∧ (jsProp mm EWS_URL_SETTING).isSome = true) := by
  refine ⟨fun m => rfl, fun l m => rfl, fun entries h => ?_⟩
  refine ⟨_, extractSettings_mkPathTree_arr (entries.map mkSettingP), ?_⟩
  rw [jsProp_fold_last]
  have hsome := lastValue_isSome_of_mem entries EWS_URL_SETTING h
  cases hlv : lastValue entries EWS_URL_SETTING with
  | some w => simp [hlv]
  | none => rw [hlv] at hsome; simp at hsome

/-- C2 witness: the amended shaping at concrete inputs. -/
theorem C2_result_shaping_witness :
    shapeResult .undef [] = .urlResult (jsProp [] EWS_URL_SETTING)
    ∧ shapeResult (.arr []) [] = .mapResult []
    ∧ ∃ mm, extractSettings (mkPathTree (.arr ([("ExternalEwsUrl", "u")].map mkSettingP)))
          = .ok mm
        ∧ (jsProp mm EWS_URL_SETTING).isSome = true :=
  ⟨C2_result_shaping.1 [],
   C2_result_shaping.2.1 [] [],
   C2_result_shaping.2.2 [("ExternalEwsUrl", "u")] (by decide)⟩

/-- C3 counterexample: when the caller's list contains ExternalEwsUrl
twice, the rendered request body contains two occurrences of its setting
element, not exactly one: the code only appends when the name is absent
and never deduplicates. -/
theorem C3_duplicate_ews_kept :
    (wrapSettingsList (.arr [EWS_URL_SETTING, EWS_URL_SETTING])).count
        (some EWS_URL_SETTING) = 2
    ∧ wrapSettingsRequest (.arr [EWS_URL_SETTING, EWS_URL_SETTING])
        = "<a:Setting>ExternalEwsUrl</a:Setting><a:Setting>ExternalEwsUrl</a:Setting>" :=
  ⟨by decide, rfl⟩

/-- C3 amended: the rendered attribute list contains ExternalEwsUrl
exactly `max 1 n` times where `n` is its number of occurrences in the
caller's list (appended once when absent, never duplicated when present
once, kept as-is when requested repeatedly), and all other requested
names appear in their supplied order. -/
theorem C3_ews_count_and_order (l : List String) :
    (wrapSettingsList (.arr l)).count (some EWS_URL_SETTING)
        = max 1 (l.count EWS_URL_SETTING)
    ∧ (wrapSettingsList (.arr l)).filter (fun s => !(s == some EWS_URL_SETTING))
        = (l.filter (fun s => !(s == EWS_URL_SETTING))).map some := by
  by_cases hmem : EWS_URL_SETTING ∈ l
  · have hc : (l.map some).contains (some EWS_URL_SETTING) = true := by
      rw [contains_map_some]
      simp [hmem]
    have hpos : 0 < l.count EWS_URL_SETTING := List.count_pos_iff.mpr hmem
    constructor
    · rw [wrapSettingsList]
      simp only [settingsToList, hc, if_true]
      rw [count_map_some]
      omega
    · rw [wrapSettingsList]
      simp only [settingsToList, hc, if_true]
      exact filter_map_some l EWS_URL_SETTING
  · have hc : (l.map some).contains (some EWS_URL_SETTING) = false := by
      rw [contains_map_some]
      simp [hmem]
    have hz : l.count EWS_URL_SETTING = 0 := List.count_eq_zero.mpr hmem
    constructor
    · rw [wrapSettingsList]
      simp only [settingsToList, hc, Bool.false_eq_true, if_false]
      rw [List.count_append, count_map_some, hz]
      simp
    · rw [wrapSettingsList]
      simp only [settingsToList, hc, Bool.false_eq_true, if_false]
      rw [List.filter_append, filter_map_some]
      simp

/-- C4 counterexample: with an email address containing no at-sign and a
missing password, the call does not fail with a validation error; it
proceeds to DNS lookup and endpoint attempts and here fails with the
aggregate of the three transport failures. -/
theorem C4_no_validation :
    discover envC4 paramsC4
      = .error (.allEndpointsFailed
          ["connection refused", "connection refused", "connection refused"]) := rfl

/-- C4 amended: the code performs no input validation: an email address
without an at-sign yields an SMTP domain equal to the whole address (and
discovery proceeds), and no invocation can fail with the validation
error, because the code never constructs one. -/
theorem C4_no_invalid_input_error :
    (∀ s : String, '@' ∉ s.data → smtpDomain s = s)
    ∧ (∀ (env : Env) (p : Params), discover env p ≠ .error .invalidInput) := by
  constructor
  · intro s h
    unfold smtpDomain jsIndexOf
    rw [firstIdx_none '@' s.data h]
    rfl
  · intro env p h
    unfold discover at h
    cases hA : autodiscoverDomains env (candidateDomains env p) p.emailAddress
        p.password (jsOrStr p.username p.emailAddress) p.settings with
    | error e =>
      rw [hA] at h
      simp at h
      rw [h] at hA
      exact autodiscoverDomains_no_invalid env _ _ _ _ _ hA
    | ok m =>
      rw [hA] at h
      simp at h

/-- C4 witness: the amended claim at concrete inputs. -/
theorem C4_no_invalid_input_error_witness :
    smtpDomain "foobar" = "foobar"
    ∧ discover envC4 paramsC4 ≠ .error .invalidInput :=
  ⟨C4_no_invalid_input_error.1 "foobar" (by decide),
   C4_no_invalid_input_error.2 envC4 paramsC4⟩

/-- C5: when every attempt over every candidate domain fails, the race
rejects and the call fails with the aggregate of the individual attempt
failures, in attempt order. -/
theorem C5_all_attempts_fail (env : Env) (domains : List String) (emailAddress : String)
    (password : Option String) (username : String) (settings : SettingsParam)
    (h : ∀ a ∈ attemptsFor domains,
      isErr (runAttempt env username password
        (createAutodiscoverSoap emailAddress settings) a) = true) :
    autodiscoverDomains env domains emailAddress password username settings
      = .error (.allEndpointsFailed ((attemptsFor domains).map
          (fun a => errOf (runAttempt env username password
            (createAutodiscoverSoap emailAddress settings) a)))) := by
  unfold autodiscoverDomains
  have hr : raceAny ((attemptsFor domains).map
      (runAttempt env username password (createAutodiscoverSoap emailAddress settings)))
      = .error (((attemptsFor domains).map
          (runAttempt env username password
            (createAutodiscoverSoap emailAddress settings))).map errOf) := by
    apply raceAny_all_errors
    intro r hrm
    rcases List.mem_map.mp hrm with ⟨a, ha, rfl⟩
    exact h a ha
  rw [hr]
  simp [List.map_map, Function.comp]

/-- C5 witness: one candidate domain, all three attempts failing. -/
theorem C5_all_attempts_fail_witness :
    autodiscoverDomains envC5 ["b.com"] "a@b.com" (some "pw") "a@b.com" .undef
      = .error (.allEndpointsFailed
          ["connection refused", "connection refused", "connection refused"]) :=
  C5_all_attempts_fail envC5 ["b.com"] "a@b.com" (some "pw") "a@b.com" .undef (by decide)

/-- C6: when the race's winning body parses but the parsed tree lacks any
node on the fixed path, the call fails with the malformed-response
error (the throw raised by the extractor, distinct from the
all-endpoints-failed and parse failures). -/
theorem C6_missing_path_malformed (env : Env) (domains : List String)
    (emailAddress : String) (password : Option String) (username : String)
    (settings : SettingsParam) (body : String) (tree : Json)
    (hwin : raceAny ((attemptsFor domains).map (runAttempt env username password
      (createAutodiscoverSoap emailAddress settings))) = .ok body)
    (hparse : env.parse body = .ok tree)
    (hpath : pathLookup tree = none) :
    autodiscoverDomains env domains emailAddress password username settings
      = .error .malformedResponse := by
  unfold autodiscoverDomains
  rw [hwin]
  simp [hparse, extract_error_of_no_path tree hpath]

/-- C6 witness: a winning response that parses to an empty object. -/
theorem C6_missing_path_malformed_witness :
    autodiscoverDomains envC6 ["b.com"] "a@b.com" (some "pw") "a@b.com" .undef
      = .error .malformedResponse :=
  C6_missing_path_malformed envC6 ["b.com"] "a@b.com" (some "pw") "a@b.com" (.undef)
    "<xml/>" (Json.obj []) rfl rfl rfl

/-- C7: when the SRV lookup for `_autodiscover._tcp.<domain>` fails for
any reason, `queryDns` returns the empty list instead of propagating the
failure, and the candidate list is exactly the SMTP domain. -/
theorem C7_dns_failure_degrades (env : Env) (p : Params) (e : String)
    (h : env.resolver ("_autodiscover._tcp." ++ smtpDomain p.emailAddress) = .error e) :
    queryDns env.resolver (smtpDomain p.emailAddress) = []
    ∧ candidateDomains env p = [smtpDomain p.emailAddress] := by
  have hq : queryDns env.resolver (smtpDomain p.emailAddress) = [] := by
    unfold queryDns
    rw [h]
  refine ⟨hq, ?_⟩
  unfold candidateDomains
  cases jsOrBool p.queryDns true <;> simp [hq]

/-- C7 witness: a resolver that always fails. -/
theorem C7_dns_failure_degrades_witness :
    queryDns envC7.resolver (smtpDomain paramsC7.emailAddress) = []
    ∧ candidateDomains envC7 paramsC7 = [smtpDomain paramsC7.emailAddress] :=
  C7_dns_failure_degrades envC7 paramsC7 "NXDOMAIN" rfl

/-- C8 counterexample: the name "A:" contains a colon, so the claim's rule
retains the (empty) segment after the colon, yielding ""; the code's
`split[1] || split[0]` treats the empty segment as falsy and falls back
to the segment before the colon, yielding "a". -/
theorem C8_trailing_colon :
    removePrefix "A:" = "a"
    ∧ removePrefixSpec "A:" = ""
    ∧ removePrefix "A:" ≠ removePrefixSpec "A:" :=
  ⟨by decide, by decide, by decide⟩

/-- C8 amended: a name without a colon is used as-is; a name of the form
`prefix:rest` with `rest` non-empty and colon-free retains only `rest`;
when the segment after the first colon is empty the code falls back to
the segment before it; in every case the first character of the result
is lower-cased. -/
theorem C8_name_normalization :
    (∀ s : String, ':' ∉ s.data → removePrefix s = lowerFirstStr s)
    ∧ (∀ p q : List Char, ':' ∉ p → ':' ∉ q → q ≠ [] →
        removePrefix (String.mk (p ++ ':' :: q)) = String.mk (lowerFirst q))
    ∧ (∀ p : List Char, ':' ∉ p →
        removePrefix (String.mk (p ++ [':'])) = String.mk (lowerFirst p)) := by
  refine ⟨?_, ?_, ?_⟩
  · intro s h
    unfold removePrefix lowerFirstStr
    rw [jsSplit_sepFree ':' s.data h]
    rfl
  · intro p q hp hq hne
    show String.mk (lowerFirst (jsIndex1Or0 (jsSplit ':' (p ++ ':' :: q)))) = _
    rw [jsSplit_append ':' p q hp, jsSplit_sepFree ':' q hq]
    have he : q.isEmpty = false := by
      cases q with
      | nil => exact absurd rfl hne
      | cons a as => rfl
    simp [jsIndex1Or0, he]
  · intro p hp
    show String.mk (lowerFirst (jsIndex1Or0 (jsSplit ':' (p ++ ':' :: [])))) = _
    rw [jsSplit_append ':' p [] hp]
    simp [jsSplit, jsIndex1Or0]

/-- C8 witness: the amended rule at concrete names. -/
theorem C8_name_normalization_witness :
    removePrefix "Bar" = lowerFirstStr "Bar"
    ∧ removePrefix (String.mk (['a'] ++ ':' :: ['F', 'o', 'o']))
        = String.mk (lowerFirst ['F', 'o', 'o'])
    ∧ removePrefix (String.mk (['X'] ++ [':'])) = String.mk (lowerFirst ['X']) :=
  ⟨C8_name_normalization.1 "Bar" (by decide),
   C8_name_normalization.2.1 ['a'] ['F', 'o', 'o'] (by decide) (by decide) (by decide),
   C8_name_normalization.2.2 ['X'] (by decide)⟩

/-- C9: the extractor treats a single scalar `userSetting` node exactly as
a one-element sequence, and folds the sequence into a map keyed by each
entry's name field with its value field, where the last entry wins on a
duplicate name. -/
theorem C9_extract_coerce_and_fold :
    (∀ n v : String,
      extractSettings (mkPathTree (mkSetting n v))
        = extractSettings (mkPathTree (.arr [mkSetting n v])))
    ∧ (∀ (entries : List (String × String)) (n v : String),
        ∃ m, extractSettings (mkPathTree (.arr ((entries ++ [(n, v)]).map mkSettingP)))
            = .ok m
          ∧ jsProp m n = some (.str v)) := by
  constructor
  · intro n v
    rfl
  · intro entries n v
    refine ⟨_, extractSettings_mkPathTree_arr ((entries ++ [(n, v)]).map mkSettingP), ?_⟩
    rw [jsProp_fold_last, lastValue_append]
    simp

/-- C10: when the settings parameter is omitted, `[].concat(undefined)`
wraps the undefined value into a one-element list, so the rendered
attribute list is the undefined element followed by the appended
ExternalEwsUrl, and the rendered body text interpolates the first as the
string "undefined" before the ExternalEwsUrl setting element. -/
theorem C10_undefined_setting_rendered :
    wrapSettingsList .undef = [none, some EWS_URL_SETTING]
    ∧ wrapSettingsRequest .undef
        = "<a:Setting>undefined</a:Setting><a:Setting>ExternalEwsUrl</a:Setting>" :=
  ⟨rfl, rfl⟩
